import Mathlib

/-!
# Cook-Commander persistence layer: a shallow embedding

This file embeds the dual-mode (offline localStorage / online Supabase)
persistence layer of the Cook-Commander meal-planning app, chiefly
`src/services/supabaseService.ts`, the archive handler in `src/App.tsx`
(`handleArchiveConfirm`) and the settings context (`SettingsProvider`).

Modelling conventions:
* ISO date strings (`YYYY-MM-DD`) are modelled as `Nat` day codes; string
  comparison on equal-length ISO dates coincides with chronological order,
  so `≤` on the codes is faithful.  `dateKeyStr` injectively renders a date
  code as the string stored in a `DayPlan.day` field.
* A JS object used as a string-keyed map (`Schedule`) is an association
  list in insertion order, with in-place replacement on key collision,
  exactly the behaviour of `schedule[key] = v` for non-integer keys.
* `localStorage` is a record with one `Option` field per storage key;
  `none` models an absent key and `JSON.parse ∘ JSON.stringify` is the
  identity on the domain values involved.
* Each remote (Supabase) table is a list of rows; a query response is
  `Except DbError _`.  Nullable columns are `Option`-typed, and the JS
  truthiness coercions (`x || y`, `if (x)`) are spelled out.
* `new Date()`-based cutoffs (`today - monthsBack` months) are abstracted
  to an arbitrary `cutoff : Nat` day code.
-/

set_option linter.unusedVariables false

namespace CookCommander

/-- JS `x || y` for a nullable string: `null` and `""` are falsy. -/
def jsOrString (x : Option String) (y : String) : String :=
  match x with
  | none => y
  | some s => if s == "" then y else s

/-- JS `x || y` for a nullable array: any array (even `[]`) is truthy. -/
def jsOrList (x : Option (List String)) (y : List String) : List String :=
  match x with
  | none => y
  | some l => l

/-- JS `s || null` for a string: `""` becomes `null`. -/
def jsToNull (s : String) : Option String :=
  if s == "" then none else some s

/-- JS truthiness of a nullable string (`if (x)`): non-null and non-empty. -/
def jsTruthy : Option String → Bool
  | none => false
  | some s => s != ""

/-- JS `str.includes(sub)`. -/
def jsIncludes (s sub : String) : Bool :=
  decide (List.IsInfix sub.toList s.toList)

/-- The `[...new Set(xs)]`: dedup keeping the first occurrence of each element. -/
def jsSetDedup (xs : List String) : List String :=
  xs.foldl (fun acc x => if x ∈ acc then acc else acc ++ [x]) []

/-- JS `xs.slice(-n)`: the last (at most) `n` elements. -/
def sliceLast (n : Nat) (xs : List String) : List String :=
  xs.drop (xs.length - n)

/-- Rendering of a date code as the ISO date-string key
(`format(date, 'yyyy-MM-dd')` / `toISOString().split('T')[0]`); injective. -/
def dateKeyStr (d : Nat) : String := toString d

/-- The `DayPlan` from `src/types.ts`: inside a draft plan `day` is a weekday
label, inside the calendar it is the ISO date key. -/
structure DayPlan where
  day : String
  breakfast : String
  lunch : String
  dinner : String
deriving DecidableEq, Repr

/-- The `WeeklyPlan` from `src/types.ts`. -/
structure WeeklyPlan where
  days : List DayPlan
deriving DecidableEq, Repr

/-- The `Schedule = Record<string, DayPlan>`: insertion-ordered map from date
code to `DayPlan`. -/
abbrev Schedule := List (Nat × DayPlan)

/-- The `schedule[key]` read: first entry with the key (keys are unique by
construction of `scheduleUpsert`). -/
def scheduleGet : Schedule → Nat → Option DayPlan
  | [], _ => none
  | (k, q) :: rest, d => if k = d then some q else scheduleGet rest d

/-- The `schedule[key] = v`: replace in place, or append a new key. -/
def scheduleUpsert : Schedule → Nat → DayPlan → Schedule
  | [], d, p => [(d, p)]
  | (k, q) :: rest, d, p =>
      if k = d then (d, p) :: rest else (k, q) :: scheduleUpsert rest d p

/-- The `PreferenceProfile` from `src/types.ts` (`extends UserPreferences`);
`mealsToPrepare`/`nonVegPreferences` are the optional (`?:`) fields,
`none` = absent. -/
structure PreferenceProfile where
  id : String
  name : String
  dietaryType : String
  allergies : List String
  dislikes : List String
  breakfastPreferences : List String
  lunchPreferences : List String
  dinnerPreferences : List String
  specialInstructions : String
  pantryStaples : List String
  mealsToPrepare : Option (List String) := none
  nonVegPreferences : Option (List String) := none
deriving DecidableEq, Repr

/-- The `MealLearningSummary` from `src/services/supabaseService.ts`. -/
structure MealLearningSummary where
  acceptedBreakfasts : List String
  acceptedLunches : List String
  acceptedDinners : List String
  recentMeals : List String
  totalMealCount : Nat
  oldestDate : Option Nat
  newestDate : Option Nat
deriving DecidableEq, Repr

/-- The `emptySummary` constant of `getMealLearningSummary`. -/
def emptySummary : MealLearningSummary :=
  { acceptedBreakfasts := []
    acceptedLunches := []
    acceptedDinners := []
    recentMeals := []
    totalMealCount := 0
    oldestDate := none
    newestDate := none }

/-- The browser `localStorage`, one `Option` field per storage key used by
the app (`none` = key absent). -/
structure LocalStorage where
  gemini_api_key : Option String := none
  cook_name : Option String := none
  cook_number : Option String := none
  qookcommander_gemini_api_key : Option String := none
  qookcommander_profiles : Option (List PreferenceProfile) := none
  qookcommander_plan : Option WeeklyPlan := none
  qookcommander_schedule : Option Schedule := none

/-- A PostgREST error object (`code`, `message`). -/
structure DbError where
  code : String
  message : String
deriving DecidableEq, Repr

/-- The `isOfflineMode` (supabaseService.ts:21): offline when Supabase is not
configured / the client is absent (`supabaseReady = false`) or the caller
identity is the sentinel `"local"`. -/
def isOfflineMode (supabaseReady : Bool) (userId : String) : Bool :=
  !supabaseReady || userId == "local"

/-! ## User settings (supabaseService.ts:29-97, SettingsProvider) -/

/-- The `Partial<UserSettings>`: a field is `none` when absent (`undefined`). -/
structure UserSettingsPartial where
  geminiApiKey : Option String := none
  cookName : Option String := none
  cookWhatsappNumber : Option String := none
deriving DecidableEq, Repr

/-- The `updateData` object built by `saveUserSettings` (lines 80-83) and
passed to the remote `upsert` on `user_settings`; an `Option` field is
`none` when the corresponding `if (... !== undefined)` guard skipped it.
(`updated_at` carries no information and is omitted.) -/
structure SettingsUpdateData where
  user_id : String
  gemini_api_key : Option String := none
  cook_name : Option String := none
  cook_whatsapp_number : Option String := none
deriving DecidableEq, Repr

/-- The `saveUserSettings` online branch: the `updateData` payload it upserts. -/
def buildSettingsUpdateData (userId : String) (s : UserSettingsPartial) :
    SettingsUpdateData :=
  { user_id := userId
    gemini_api_key := s.geminiApiKey
    cook_name := s.cookName
    cook_whatsapp_number := s.cookWhatsappNumber }

/-- The `saveUserSettings` offline branch: conditional `localStorage.setItem`s. -/
def saveUserSettingsOffline (ls : LocalStorage) (s : UserSettingsPartial) :
    LocalStorage :=
  let ls := match s.geminiApiKey with
    | some k => { ls with gemini_api_key := some k }
    | none => ls
  let ls := match s.cookName with
    | some n => { ls with cook_name := some n }
    | none => ls
  match s.cookWhatsappNumber with
  | some n => { ls with cook_number := some n }
  | none => ls

/-- The `saveUserSettings`: the remote upsert payload it issues, `none` when the
offline branch is taken (nothing reaches the remote store). -/
def saveUserSettingsRemotePayload (supabaseReady : Bool) (userId : String)
    (s : UserSettingsPartial) : Option SettingsUpdateData :=
  if isOfflineMode supabaseReady userId then none
  else some (buildSettingsUpdateData userId s)

/-- The `setApiKey` from the settings context (`SettingsProvider`): writes the
key to `localStorage` under `qookcommander_gemini_api_key` only; it issues
no repository call, hence no remote payload (second component). -/
def setApiKey (ls : LocalStorage) (key : String) :
    LocalStorage × Option SettingsUpdateData :=
  ({ ls with qookcommander_gemini_api_key := some key }, none)

/-- The `setCookName` from the settings context: the partial it passes to
`saveUserSettings`. -/
def setCookNamePartial (name : String) : UserSettingsPartial :=
  { cookName := some name }

/-- The `setCookNumber` from the settings context: the partial it passes to
`saveUserSettings`. -/
def setCookNumberPartial (number : String) : UserSettingsPartial :=
  { cookWhatsappNumber := some number }

/-! ## Preference profiles (supabaseService.ts:103-243) -/

/-- The `PreferenceProfileRow` (supabaseService.ts:103): the snake_case row
shape written by `profileAppToRow`; nullable columns are `Option`-typed.
(`is_default`/timestamps are server-managed and not part of the payload.) -/
structure PreferenceProfileRow where
  id : String
  user_id : String
  name : String
  dietary_type : Option String
  allergies : Option (List String)
  dislikes : Option (List String)
  breakfast_preferences : Option (List String)
  lunch_preferences : Option (List String)
  dinner_preferences : Option (List String)
  special_instructions : Option String
  pantry_staples : Option (List String)
deriving DecidableEq, Repr

/-- The `profileRowToApp` (supabaseService.ts:131): nulls become empty
string/array; the optional app fields are not populated. -/
def profileRowToApp (row : PreferenceProfileRow) : PreferenceProfile :=
  { id := row.id
    name := row.name
    dietaryType := jsOrString row.dietary_type ""
    allergies := jsOrList row.allergies []
    dislikes := jsOrList row.dislikes []
    breakfastPreferences := jsOrList row.breakfast_preferences []
    lunchPreferences := jsOrList row.lunch_preferences []
    dinnerPreferences := jsOrList row.dinner_preferences []
    specialInstructions := jsOrString row.special_instructions ""
    pantryStaples := jsOrList row.pantry_staples [] }

/-- The `profileAppToRow` (supabaseService.ts:144). -/
def profileAppToRow (profile : PreferenceProfile) (userId : String) :
    PreferenceProfileRow :=
  { id := profile.id
    user_id := userId
    name := profile.name
    dietary_type := some profile.dietaryType
    allergies := some profile.allergies
    dislikes := some profile.dislikes
    breakfast_preferences := some profile.breakfastPreferences
    lunch_preferences := some profile.lunchPreferences
    dinner_preferences := some profile.dinnerPreferences
    special_instructions := some profile.specialInstructions
    pantry_staples := some profile.pantryStaples }

/-- The `getPreferenceProfiles` offline branch: parse the stored collection or
default to `[]` when the key is absent. -/
def getPreferenceProfilesOffline (ls : LocalStorage) : List PreferenceProfile :=
  ls.qookcommander_profiles.getD []

/-- The `getPreferenceProfiles` online branch, applied to the query response:
an error propagates (`throw error`), otherwise rows are translated.
(The `created_at` ascending order is the storage order of the row list.) -/
def getPreferenceProfilesOnlineRes
    (res : Except DbError (List PreferenceProfileRow)) :
    Except DbError (List PreferenceProfile) :=
  match res with
  | .error e => .error e
  | .ok rows => .ok (rows.map profileRowToApp)

/-- The row filter of the `preference_profiles` select:
`.eq('user_id', userId)`. -/
def profilesQuery (db : List PreferenceProfileRow) (userId : String) :
    List PreferenceProfileRow :=
  db.filter (fun r => r.user_id == userId)

/-- The `getPreferenceProfiles` online branch against a table state. -/
def getPreferenceProfilesOnline (db : List PreferenceProfileRow)
    (userId : String) : List PreferenceProfile :=
  (profilesQuery db userId).map profileRowToApp

/-- The offline `savePreferenceProfile` collection update:
`findIndex` on `id`, replace in place if found, else `push`. -/
def upsertProfileList : List PreferenceProfile → PreferenceProfile →
    List PreferenceProfile
  | [], p => [p]
  | q :: rest, p =>
      if q.id == p.id then p :: rest else q :: upsertProfileList rest p

/-- The `savePreferenceProfile` offline branch. -/
def savePreferenceProfileOffline (ls : LocalStorage) (p : PreferenceProfile) :
    LocalStorage :=
  let profiles := upsertProfileList (ls.qookcommander_profiles.getD []) p
  { ls with qookcommander_profiles := some profiles }

/-- The `preference_profiles` upsert (conflict target: primary key `id`):
replace the row with the same `id` in place, else append. -/
def upsertProfileRow : List PreferenceProfileRow → PreferenceProfileRow →
    List PreferenceProfileRow
  | [], r => [r]
  | q :: rest, r =>
      if q.id == r.id then r :: rest else q :: upsertProfileRow rest r

/-- The `savePreferenceProfile` online branch: upsert `profileAppToRow profile`,
return the updated table and the translation of the row echoed by
`.select().single()`. -/
def savePreferenceProfileOnline (db : List PreferenceProfileRow)
    (p : PreferenceProfile) (userId : String) :
    List PreferenceProfileRow × PreferenceProfile :=
  let row := profileAppToRow p userId
  (upsertProfileRow db row, profileRowToApp row)

/-- The `deletePreferenceProfile` online branch (supabaseService.ts:234-237):
`DELETE FROM preference_profiles WHERE id = profileId`.  The `userId`
argument is NOT part of the filter — the online branch never uses it. -/
def deletePreferenceProfileOnline (profileId : String) (userId : String)
    (db : List PreferenceProfileRow) : List PreferenceProfileRow :=
  db.filter (fun r => !(r.id == profileId))

/-- The `deletePreferenceProfile` offline branch: filter-and-rewrite of the
whole local collection. -/
def deletePreferenceProfileOffline (ls : LocalStorage) (profileId : String) :
    LocalStorage :=
  let filtered := (ls.qookcommander_profiles.getD []).filter
    (fun p => !(p.id == profileId))
  { ls with qookcommander_profiles := some filtered }

/-! ## Weekly plans (supabaseService.ts:249-320) -/

/-- A `weekly_plans` row (`created_at` order is the storage order: `savePlan`
appends the newest row last). -/
structure WeeklyPlanRow where
  id : String
  user_id : String
  days : List DayPlan
  is_current : Bool
deriving DecidableEq, Repr

/-- The `getCurrentPlan` offline branch: parse the stored draft or `null`. -/
def getCurrentPlanOffline (ls : LocalStorage) : Option WeeklyPlan :=
  ls.qookcommander_plan

/-- The `weekly_plans` select of `getCurrentPlan`:
`.eq('user_id', userId).eq('is_current', true)` ordered by `created_at`
descending, `limit 1`. -/
def currentPlanQuery (db : List WeeklyPlanRow) (userId : String) :
    List WeeklyPlanRow :=
  ((db.filter (fun r => r.user_id == userId && r.is_current)).reverse).take 1

/-- The `.single()`: exactly one row, else a `PGRST116` error. -/
def singlePlanRow (rows : List WeeklyPlanRow) : Except DbError WeeklyPlanRow :=
  match rows with
  | [r] => .ok r
  | _ => .error { code := "PGRST116", message := "JSON object requested" }

/-- The `getCurrentPlan` online error handling (lines 264-271): `PGRST116` or a
message containing `406` is the benign zero-row outcome (`null`), any other
error propagates. -/
def getCurrentPlanOnlineRes (res : Except DbError WeeklyPlanRow) :
    Except DbError (Option WeeklyPlan) :=
  match res with
  | .error e =>
      if e.code == "PGRST116" || jsIncludes e.message "406" then .ok none
      else .error e
  | .ok r => .ok (some { days := r.days })

/-- The `getCurrentPlan` online branch against a table state. -/
def getCurrentPlanOnline (db : List WeeklyPlanRow) (userId : String) :
    Except DbError (Option WeeklyPlan) :=
  getCurrentPlanOnlineRes (singlePlanRow (currentPlanQuery db userId))

/-- The `clearCurrentPlan` online branch:
`UPDATE weekly_plans SET is_current = false WHERE user_id = uid AND is_current`. -/
def clearCurrentPlanOnline (db : List WeeklyPlanRow) (userId : String) :
    List WeeklyPlanRow :=
  db.map (fun r =>
    if r.user_id == userId && r.is_current then { r with is_current := false }
    else r)

/-- The `clearCurrentPlan` offline branch:
`localStorage.removeItem('qookcommander_plan')`. -/
def clearCurrentPlanOffline (ls : LocalStorage) : LocalStorage :=
  { ls with qookcommander_plan := none }

/-! ## Scheduled meals / calendar (supabaseService.ts:326-440) -/

/-- A `scheduled_meals` row; the table is `UNIQUE(user_id, date)` and meal
columns are nullable. -/
structure ScheduledMealRow where
  user_id : String
  date : Nat
  breakfast : Option String
  lunch : Option String
  dinner : Option String
deriving DecidableEq, Repr

/-- The `scheduledMealRowToDay` (supabaseService.ts:158): `day` is the row's
date key, null meals become `""`. -/
def scheduledMealRowToDay (row : ScheduledMealRow) : DayPlan :=
  { day := dateKeyStr row.date
    breakfast := jsOrString row.breakfast ""
    lunch := jsOrString row.lunch ""
    dinner := jsOrString row.dinner "" }

/-- The `scheduled_meals` upsert (`onConflict: 'user_id,date'`): the unique
constraint leaves one row per key, modelled by dropping the old row for the
key and appending the updated one. -/
def upsertMealRow (db : List ScheduledMealRow) (row : ScheduledMealRow) :
    List ScheduledMealRow :=
  (db.filter (fun r => !(r.user_id == row.user_id && r.date == row.date)))
    ++ [row]

/-- The `scheduled_meals` select of `getSchedule`: `.eq('user_id', userId)`
plus the optional `gte`/`lte` date bounds. -/
def scheduleQuery (db : List ScheduledMealRow) (userId : String)
    (startDate endDate : Option Nat) : List ScheduledMealRow :=
  db.filter (fun r =>
    r.user_id == userId
      && (match startDate with | some lo => lo ≤ r.date | none => true)
      && (match endDate with | some hi => r.date ≤ hi | none => true))

/-- The map-building loop of `getSchedule` (lines 355-358):
`schedule[row.date] = scheduledMealRowToDay(row)` over the fetched rows. -/
def buildSchedule (rows : List ScheduledMealRow) : Schedule :=
  rows.foldl (fun s r => scheduleUpsert s r.date (scheduledMealRowToDay r)) []

/-- The `getSchedule` offline branch: parse the stored map or `{}`. -/
def getScheduleOffline (ls : LocalStorage) : Schedule :=
  ls.qookcommander_schedule.getD []

/-- The `getSchedule` online branch, applied to the query response: an error
propagates, otherwise the date-keyed map is built. -/
def getScheduleOnlineRes (res : Except DbError (List ScheduledMealRow)) :
    Except DbError Schedule :=
  match res with
  | .error e => .error e
  | .ok rows => .ok (buildSchedule rows)

/-- The `getSchedule` online branch against a table state. -/
def getScheduleOnline (db : List ScheduledMealRow) (userId : String)
    (startDate endDate : Option Nat) : Schedule :=
  buildSchedule (scheduleQuery db userId startDate endDate)

/-- The `saveScheduledMeal` offline branch: `schedule[date] = dayPlan` on the
stored map. -/
def saveScheduledMealOffline (ls : LocalStorage) (date : Nat)
    (dayPlan : DayPlan) : LocalStorage :=
  let sched := scheduleUpsert (ls.qookcommander_schedule.getD []) date dayPlan
  { ls with qookcommander_schedule := some sched }

/-- The row `saveScheduledMeal` upserts: empty meal strings become null. -/
def saveScheduledMealRow (date : Nat) (dayPlan : DayPlan) (userId : String) :
    ScheduledMealRow :=
  { user_id := userId
    date := date
    breakfast := jsToNull dayPlan.breakfast
    lunch := jsToNull dayPlan.lunch
    dinner := jsToNull dayPlan.dinner }

/-- The `saveScheduledMeal` online branch. -/
def saveScheduledMealOnline (db : List ScheduledMealRow) (date : Nat)
    (dayPlan : DayPlan) (userId : String) : List ScheduledMealRow :=
  upsertMealRow db (saveScheduledMealRow date dayPlan userId)

/-! ## Archive (supabaseService.ts:392-433, App.tsx:300-341)

`addDays(startDate, idx)` is date arithmetic on ISO dates; on `Nat` day
codes it is `startDate + idx`. -/

/-- The offline archive loop (lines 401-404):
`schedule[date] = { ...day, day: date }` for each indexed draft day. -/
def archiveDays (sched : Schedule) (days : List DayPlan) (startDate : Nat) :
    Schedule :=
  days.enum.foldl
    (fun s p =>
      scheduleUpsert s (startDate + p.1)
        { p.2 with day := dateKeyStr (startDate + p.1) })
    sched

/-- The `archivePlanToSchedule` offline branch: write every draft day into the
stored map (no conflict policy is consulted), then remove the draft key. -/
def archivePlanToScheduleOffline (ls : LocalStorage) (plan : WeeklyPlan)
    (startDate : Nat) : LocalStorage :=
  let sched := archiveDays (ls.qookcommander_schedule.getD []) plan.days
    startDate
  { ls with qookcommander_schedule := some sched, qookcommander_plan := none }

/-- The `archivePlanToSchedule` online branch: upsert one row per draft day
(`onConflict: 'user_id,date', ignoreDuplicates: false` — i.e. always
overwrite), then `clearCurrentPlan`. -/
def archivePlanToScheduleOnline (mealsDb : List ScheduledMealRow)
    (plansDb : List WeeklyPlanRow) (plan : WeeklyPlan) (startDate : Nat)
    (userId : String) : List ScheduledMealRow × List WeeklyPlanRow :=
  let mealsDb := plan.days.enum.foldl
    (fun db p => upsertMealRow db
      { user_id := userId
        date := startDate + p.1
        breakfast := jsToNull p.2.breakfast
        lunch := jsToNull p.2.lunch
        dinner := jsToNull p.2.dinner })
    mealsDb
  (mealsDb, clearCurrentPlanOnline plansDb userId)

/-- The in-memory merge of `handleArchiveConfirm` (App.tsx:315-331): the
only place the `overwrite` flag is consulted.  `newSchedule` starts as a
copy of the current state; with `overwrite = false` a day is written only
when the existing entry (looked up in the original `schedule`) is absent or
has all three meal slots empty. -/
def mergeArchiveLocalState (schedule : Schedule) (days : List DayPlan)
    (startDate : Nat) (overwrite : Bool) : Schedule :=
  days.enum.foldl
    (fun ns p =>
      let dateKey := startDate + p.1
      let newDay : DayPlan := { p.2 with day := dateKeyStr dateKey }
      if overwrite then scheduleUpsert ns dateKey newDay
      else
        match scheduleGet schedule dateKey with
        | none => scheduleUpsert ns dateKey newDay
        | some existing =>
            if existing.breakfast == "" && existing.lunch == ""
                && existing.dinner == "" then
              scheduleUpsert ns dateKey newDay
            else ns)
    schedule

/-! ## Learning summary (supabaseService.ts:591-695) -/

/-- The `getMealLearningSummary` offline branch (lines 605-638).  The cutoff
(`today - monthsBack` months) is an arbitrary day code; `Object.entries`
iterates the stored map in insertion order.  Note `oldestDate`/`newestDate`
are the literal `null`s of lines 635-636. -/
def getMealLearningSummaryOffline (ls : LocalStorage) (cutoff : Nat) :
    MealLearningSummary :=
  match ls.qookcommander_schedule with
  | none => emptySummary
  | some schedule =>
      let win := schedule.filter (fun kv => decide (cutoff ≤ kv.1))
      let breakfasts := win.filterMap (fun kv =>
        if kv.2.breakfast == "" then none else some kv.2.breakfast)
      let lunches := win.filterMap (fun kv =>
        if kv.2.lunch == "" then none else some kv.2.lunch)
      let dinners := win.filterMap (fun kv =>
        if kv.2.dinner == "" then none else some kv.2.dinner)
      let allMeals := win.flatMap (fun kv =>
        [kv.2.breakfast, kv.2.lunch, kv.2.dinner])
      let nonEmpty := allMeals.filter (fun m => m != "")
      { acceptedBreakfasts := jsSetDedup breakfasts
        acceptedLunches := jsSetDedup lunches
        acceptedDinners := jsSetDedup dinners
        recentMeals := sliceLast 21 nonEmpty
        totalMealCount := nonEmpty.length
        oldestDate := none
        newestDate := none }

/-- The projection fetched by the online branch:
`select('date, breakfast, lunch, dinner')`. -/
structure LearningRow where
  date : Nat
  breakfast : Option String
  lunch : Option String
  dinner : Option String
deriving DecidableEq, Repr

/-- Column projection of a `scheduled_meals` row. -/
def toLearningRow (r : ScheduledMealRow) : LearningRow :=
  { date := r.date, breakfast := r.breakfast, lunch := r.lunch,
    dinner := r.dinner }

/-- Reverse-chronological order used by `.order('date', ascending: false)`. -/
def learningDesc (a b : LearningRow) : Prop := b.date ≤ a.date

instance : DecidableRel learningDesc := fun a b => Nat.decLe b.date a.date

instance : IsTotal LearningRow learningDesc :=
  ⟨fun a b => (Nat.le_total a.date b.date).symm⟩

instance : IsTrans LearningRow learningDesc :=
  ⟨fun _ _ _ hab hbc => Nat.le_trans hbc hab⟩

/-- The in-window rows of the caller:
`.eq('user_id', userId).gte('date', cutoffStr)`. -/
def learningWindow (db : List ScheduledMealRow) (userId : String)
    (cutoff : Nat) : List ScheduledMealRow :=
  db.filter (fun r => r.user_id == userId && decide (cutoff ≤ r.date))

/-- The fetched row list of the online branch: the window, projected and
sorted descending by date. -/
def fetchLearningRows (db : List ScheduledMealRow) (userId : String)
    (cutoff : Nat) : List LearningRow :=
  List.insertionSort learningDesc ((learningWindow db userId cutoff).map
    toLearningRow)

/-- The non-empty slot-events a row pushes into `recentMeals` when its index
is below 21, in the fixed breakfast→lunch→dinner order. -/
def rowEvents (r : LearningRow) : List String :=
  (if jsTruthy r.breakfast then [r.breakfast.getD ""] else [])
    ++ (if jsTruthy r.lunch then [r.lunch.getD ""] else [])
    ++ (if jsTruthy r.dinner then [r.dinner.getD ""] else [])

/-- The `scheduledMeals.forEach((meal, index) => ...)` loop (lines 667-680),
carried out with an explicit running index: accumulates
(breakfasts, lunches, dinners, recentMeals); a slot joins `recentMeals`
only when the row index is `< 21`. -/
def collectRows : Nat → List LearningRow →
    List String × List String × List String × List String
  | _, [] => ([], [], [], [])
  | idx, r :: rest =>
      let acc := collectRows (idx + 1) rest
      ((if jsTruthy r.breakfast then [r.breakfast.getD ""] else []) ++ acc.1,
       (if jsTruthy r.lunch then [r.lunch.getD ""] else []) ++ acc.2.1,
       (if jsTruthy r.dinner then [r.dinner.getD ""] else []) ++ acc.2.2.1,
       (if idx < 21 then rowEvents r else []) ++ acc.2.2.2)

/-- The `getMealLearningSummary` online branch on the fetched rows
(lines 658-690): empty fetch yields `emptySummary`; otherwise accepted sets
are deduplicated, `recentMeals` comes from the index-guarded loop, and
`oldestDate`/`newestDate` are the last/first fetched rows' dates. -/
def getMealLearningSummaryOnline (rows : List LearningRow) :
    MealLearningSummary :=
  if rows.isEmpty then emptySummary
  else
    let acc := collectRows 0 rows
    { acceptedBreakfasts := jsSetDedup acc.1
      acceptedLunches := jsSetDedup acc.2.1
      acceptedDinners := jsSetDedup acc.2.2.1
      recentMeals := acc.2.2.2
      totalMealCount := acc.1.length + acc.2.1.length + acc.2.2.1.length
      oldestDate := rows.getLast?.map (fun r => r.date)
      newestDate := rows.head?.map (fun r => r.date) }

/-- The `getMealLearningSummary` online branch applied to the query response:
an error yields `emptySummary` (lines 653-656), never a failure. -/
def getMealLearningSummaryOnlineRes
    (res : Except DbError (List LearningRow)) : MealLearningSummary :=
  match res with
  | .error _ => emptySummary
  | .ok rows => getMealLearningSummaryOnline rows

/-! ## General lemmas -/

theorem scheduleGet_upsert_self (s : Schedule) (d : Nat) (p : DayPlan) :
    scheduleGet (scheduleUpsert s d p) d = some p := by
  induction s with
  | nil => simp [scheduleUpsert, scheduleGet]
  | cons kv rest ih =>
      obtain ⟨k, q⟩ := kv
      by_cases h : k = d
      · simp [scheduleUpsert, scheduleGet, h]
      · simp [scheduleUpsert, scheduleGet, h, ih]

theorem scheduleGet_upsert_other (s : Schedule) (d d' : Nat) (p : DayPlan)
    (h : d' ≠ d) : scheduleGet (scheduleUpsert s d p) d' = scheduleGet s d' := by
  have hds : ¬ d = d' := fun h' => h h'.symm
  induction s with
  | nil => simp [scheduleUpsert, scheduleGet, hds]
  | cons kv rest ih =>
      obtain ⟨k, q⟩ := kv
      by_cases hk : k = d
      · subst hk
        simp [scheduleUpsert, scheduleGet, hds]
      · simp only [scheduleUpsert, if_neg hk, scheduleGet]
        by_cases hk' : k = d'
        · simp [hk']
        · simp [hk', ih]

theorem jsOrString_some_self (s : String) : jsOrString (some s) "" = s := by
  by_cases h : s = ""
  · simp [jsOrString, h]
  · simp [jsOrString, h]

theorem jsOrString_jsToNull (s : String) : jsOrString (jsToNull s) "" = s := by
  by_cases h : s = ""
  · simp [jsToNull, jsOrString, h]
  · simp [jsToNull, jsOrString, h]

theorem scheduledMealRowToDay_save (date : Nat) (p : DayPlan)
    (userId : String) :
    scheduledMealRowToDay (saveScheduledMealRow date p userId) =
      { day := dateKeyStr date, breakfast := p.breakfast, lunch := p.lunch,
        dinner := p.dinner } := by
  simp [scheduledMealRowToDay, saveScheduledMealRow, jsOrString_jsToNull]

/-! ## Claim theorems -/

/-- C8 (counterexample): the upsert/get round-trip is NOT exact in online
mode: storing the draft day `{day: "Monday", breakfast: "Idli", lunch: "",
dinner: "Dal"}` under date key `5` and reading the schedule back yields a
`DayPlan` whose `day` field is the date key `"5"`, not `"Monday"` — the
`day` field is not persisted in a `scheduled_meals` row. -/
theorem c8_schedule_roundTrip_counterexample :
    scheduleGet
        (getScheduleOnline
          (saveScheduledMealOnline [] 5 ⟨"Monday", "Idli", "", "Dal"⟩ "u1")
          "u1" none none) 5 =
      some ⟨"5", "Idli", "", "Dal"⟩ ∧
    scheduleGet
        (getScheduleOnline
          (saveScheduledMealOnline [] 5 ⟨"Monday", "Idli", "", "Dal"⟩ "u1")
          "u1" none none) 5 ≠
      some ⟨"Monday", "Idli", "", "Dal"⟩ := by
  constructor
  · rfl
  · decide

/-- C8 (amended): offline, `get(upsert(S,d,p))[d] = p` exactly; online,
reading back yields `p` with its `day` field replaced by the date key
(meal slots survive the empty-string/null translation), so the round-trip
is exact precisely when `p.day` already equals the key. -/
theorem c8_schedule_roundTrip_amended :
    (∀ (ls : LocalStorage) (d : Nat) (p : DayPlan),
      scheduleGet (getScheduleOffline (saveScheduledMealOffline ls d p)) d =
        some p) ∧
    (∀ (db : List ScheduledMealRow) (uid : String) (d : Nat) (p : DayPlan),
      scheduleGet
          (getScheduleOnline (saveScheduledMealOnline db d p uid) uid none
            none) d =
        some { day := dateKeyStr d, breakfast := p.breakfast,
               lunch := p.lunch, dinner := p.dinner }) := by
  constructor
  · intro ls d p
    simp [getScheduleOffline, saveScheduledMealOffline,
      scheduleGet_upsert_self]
  · intro db uid d p
    have hq :
        scheduleQuery (saveScheduledMealOnline db d p uid) uid none none =
          scheduleQuery
              (db.filter (fun r =>
                !(r.user_id == (saveScheduledMealRow d p uid).user_id
                  && r.date == (saveScheduledMealRow d p uid).date)))
              uid none none
            ++ [saveScheduledMealRow d p uid] := by
      simp [saveScheduledMealOnline, upsertMealRow, scheduleQuery,
        List.filter_append, saveScheduledMealRow]
    simp only [getScheduleOnline, hq, buildSchedule, List.foldl_append,
      List.foldl_cons, List.foldl_nil, scheduledMealRowToDay_save]
    exact scheduleGet_upsert_self _ _ _

/-- C1 (code bug, evaluated at the failing input): with `overwrite = false`
and a pre-existing populated entry (breakfast `"Poha"`) at the start date,
`handleArchiveConfirm`'s persistence call `archivePlanToSchedule` — which
never receives the `overwrite` flag — overwrites the populated day in the
persisted Schedule with the draft day, while the in-memory merge of the
same handler (and the spec) keeps the existing entry untouched. -/
theorem c1_archive_overwriteFalse_persistence_bug :
    let existing : DayPlan := ⟨"1", "Poha", "", ""⟩
    let draft : DayPlan := ⟨"Monday", "Idli", "Dal", "Rice"⟩
    let plan : WeeklyPlan :=
      ⟨[draft, draft, draft, draft, draft, draft, draft]⟩
    let ls : LocalStorage :=
      { qookcommander_schedule := some [(1, existing)],
        qookcommander_plan := some plan }
    scheduleGet (getScheduleOffline (archivePlanToScheduleOffline ls plan 1))
        1 = some ⟨"1", "Idli", "Dal", "Rice"⟩ ∧
    (⟨"1", "Idli", "Dal", "Rice"⟩ : DayPlan) ≠ existing ∧
    scheduleGet (mergeArchiveLocalState [(1, existing)] plan.days 1 false) 1 =
      some existing := by
  refine ⟨rfl, by decide, rfl⟩

/-- C5 (code bug, evaluated at the failing input): the online branch of
`deletePreferenceProfile` filters only on the profile `id` — its `userId`
argument is never used — so the delete issued for caller `"u1"` matches
(and, absent store-side row-level security, removes) a row owned by the
different identity `"u2"`. -/
theorem c5_delete_profile_unscoped_bug :
    let foreignRow : PreferenceProfileRow :=
      { id := "p1", user_id := "u2", name := "Family",
        dietary_type := some "veg", allergies := some [],
        dislikes := some [], breakfast_preferences := some [],
        lunch_preferences := some [], dinner_preferences := some [],
        special_instructions := some "", pantry_staples := some [] }
    deletePreferenceProfileOnline "p1" "u1" [foreignRow] = [] ∧
    foreignRow.user_id ≠ "u1" := by
  exact ⟨rfl, by decide⟩

/-- C6: after any archive call, in either mode, the current weekly draft
plan is absent: the offline branch removes the local draft key, and the
online branch's `clearCurrentPlan` leaves no row marked current, so the
subsequent `getCurrentPlan` returns `null` (via the benign `PGRST116`
zero-row outcome online). -/
theorem c6_archive_clears_current_plan :
    (∀ (ls : LocalStorage) (plan : WeeklyPlan) (startDate : Nat),
      getCurrentPlanOffline (archivePlanToScheduleOffline ls plan startDate) =
        none) ∧
    (∀ (mealsDb : List ScheduledMealRow) (plansDb : List WeeklyPlanRow)
        (plan : WeeklyPlan) (startDate : Nat) (uid : String),
      getCurrentPlanOnline
          (archivePlanToScheduleOnline mealsDb plansDb plan startDate
            uid).2 uid =
        Except.ok none) := by
  constructor
  · intro ls plan startDate
    simp [getCurrentPlanOffline, archivePlanToScheduleOffline]
  · intro mealsDb plansDb plan startDate uid
    have hfil : (clearCurrentPlanOnline plansDb uid).filter
        (fun r => r.user_id == uid && r.is_current) = [] := by
      induction plansDb with
      | nil => rfl
      | cons r rest ih =>
          by_cases h : (r.user_id == uid && r.is_current) = true
          · simp [clearCurrentPlanOnline, h, List.filter] at ih ⊢
            simpa [List.filter] using ih
          · simp [clearCurrentPlanOnline, h, List.filter] at ih ⊢
            simpa [List.filter, h] using ih
    simp [archivePlanToScheduleOnline, getCurrentPlanOnline,
      currentPlanQuery, hfil, singlePlanRow, getCurrentPlanOnlineRes]

/-- C9: offline reads never fail — an absent local storage key yields the
entity's empty default (empty list of profiles, empty schedule map, `null`
current plan) — whereas an online query error propagates to the caller
(for `getCurrentPlan`, any error other than the benign `PGRST116`/`406`
zero-row outcome). -/
theorem c9_offline_reads_never_fail :
    (∀ ls : LocalStorage, ls.qookcommander_profiles = none →
      getPreferenceProfilesOffline ls = []) ∧
    (∀ ls : LocalStorage, ls.qookcommander_schedule = none →
      getScheduleOffline ls = []) ∧
    (∀ ls : LocalStorage, ls.qookcommander_plan = none →
      getCurrentPlanOffline ls = none) ∧
    (∀ e : DbError,
      getPreferenceProfilesOnlineRes (.error e) = .error e) ∧
    (∀ e : DbError, getScheduleOnlineRes (.error e) = .error e) ∧
    (∀ e : DbError, e.code ≠ "PGRST116" →
      jsIncludes e.message "406" = false →
      getCurrentPlanOnlineRes (.error e) = .error e) := by
  refine ⟨?_, ?_, ?_, ?_, ?_, ?_⟩
  · intro ls h
    simp [getPreferenceProfilesOffline, h]
  · intro ls h
    simp [getScheduleOffline, h]
  · intro ls h
    simp [getCurrentPlanOffline, h]
  · intro e
    rfl
  · intro e
    rfl
  · intro e hcode h406
    simp [getCurrentPlanOnlineRes, hcode, h406]

/-- Witness for C9 at a concrete empty storage and a concrete `500` error. -/
theorem c9_offline_reads_never_fail_witness :
    getPreferenceProfilesOffline {} = [] ∧
    getScheduleOffline {} = [] ∧
    getCurrentPlanOffline {} = none ∧
    getCurrentPlanOnlineRes (.error ⟨"500", "boom"⟩) =
      .error ⟨"500", "boom"⟩ := by
  refine ⟨c9_offline_reads_never_fail.1 {} rfl,
    c9_offline_reads_never_fail.2.1 {} rfl,
    c9_offline_reads_never_fail.2.2.1 {} rfl,
    c9_offline_reads_never_fail.2.2.2.2.2 ⟨"500", "boom"⟩ (by decide)
      (by decide)⟩

/-- C2 (counterexample): the remote upsert payload of `saveUserSettings`
DOES contain the API-key field when the caller's partial settings value
sets `geminiApiKey` — the claim's "never, for every settings value" fails
in online mode on the input `{ geminiApiKey: "sk-secret" }`. -/
theorem c2_settings_payload_key_counterexample :
    saveUserSettingsRemotePayload true "u1"
        { geminiApiKey := some "sk-secret" } =
      some { user_id := "u1", gemini_api_key := some "sk-secret" } ∧
    (buildSettingsUpdateData "u1"
        { geminiApiKey := some "sk-secret" }).gemini_api_key ≠ none := by
  exact ⟨rfl, by decide⟩

/-- C2 (amended): `setApiKey` writes the key only to its device-local
storage key and issues no remote payload; the remote settings upsert
payload carries the API-key field exactly when the caller's partial value
includes `geminiApiKey`, and the settings context's cook-contact setters —
the only in-repo remote settings writers — never include it. -/
theorem c2_settings_key_locality_amended :
    (∀ (ls : LocalStorage) (key : String),
      (setApiKey ls key).2 = none ∧
      (setApiKey ls key).1 =
        { ls with qookcommander_gemini_api_key := some key }) ∧
    (∀ (ready : Bool) (uid : String) (s : UserSettingsPartial)
        (pd : SettingsUpdateData),
      saveUserSettingsRemotePayload ready uid s = some pd →
      pd.gemini_api_key = s.geminiApiKey) ∧
    (∀ uid name,
      (buildSettingsUpdateData uid (setCookNamePartial name)).gemini_api_key
        = none) ∧
    (∀ uid number,
      (buildSettingsUpdateData uid
        (setCookNumberPartial number)).gemini_api_key = none) := by
  refine ⟨fun ls key => ⟨rfl, rfl⟩, ?_, fun uid name => rfl,
    fun uid number => rfl⟩
  intro ready uid s pd h
  by_cases hm : isOfflineMode ready uid = true
  · simp [saveUserSettingsRemotePayload, hm] at h
  · simp [saveUserSettingsRemotePayload, hm] at h
    subst h
    rfl

/-- Witness for C2 (amended): the payload the settings context issues for
`setCookName("Asha")` online, and a key-bearing partial, at concrete
inputs. -/
theorem c2_settings_key_locality_witness :
    saveUserSettingsRemotePayload true "u1"
        { geminiApiKey := some "sk-1" } =
      some (buildSettingsUpdateData "u1" { geminiApiKey := some "sk-1" }) ∧
    (buildSettingsUpdateData "u1"
        { geminiApiKey := some "sk-1" }).gemini_api_key = some "sk-1" := by
  refine ⟨rfl, ?_⟩
  exact c2_settings_key_locality_amended.2.1 true "u1"
    { geminiApiKey := some "sk-1" }
    (buildSettingsUpdateData "u1" { geminiApiKey := some "sk-1" }) rfl

theorem mem_upsertProfileList (l : List PreferenceProfile)
    (p : PreferenceProfile) : p ∈ upsertProfileList l p := by
  induction l with
  | nil => simp [upsertProfileList]
  | cons q rest ih =>
      by_cases h : (q.id == p.id) = true
      · simp [upsertProfileList, h]
      · simp [upsertProfileList, h]
        right
        exact ih

theorem mem_upsertProfileRow (db : List PreferenceProfileRow)
    (r : PreferenceProfileRow) : r ∈ upsertProfileRow db r := by
  induction db with
  | nil => simp [upsertProfileRow]
  | cons q rest ih =>
      by_cases h : (q.id == r.id) = true
      · simp [upsertProfileRow, h]
      · simp [upsertProfileRow, h]
        right
        exact ih

theorem profileRowToApp_appToRow (p : PreferenceProfile) (uid : String) :
    profileRowToApp (profileAppToRow p uid) =
      { p with mealsToPrepare := none, nonVegPreferences := none } := by
  simp [profileRowToApp, profileAppToRow, jsOrList, jsOrString_some_self]

/-- C7 (counterexample): the save/get round-trip fails online for a profile
carrying the optional `nonVegPreferences` field — `profileAppToRow` has no
column for it and `profileRowToApp` does not restore it, so the profile
read back is not equal to the one saved. -/
theorem c7_profile_roundTrip_counterexample :
    let p : PreferenceProfile :=
      { id := "p1", name := "N", dietaryType := "veg", allergies := [],
        dislikes := [], breakfastPreferences := [], lunchPreferences := [],
        dinnerPreferences := [], specialInstructions := "",
        pantryStaples := [], mealsToPrepare := none,
        nonVegPreferences := some ["fish"] }
    p ∉ getPreferenceProfilesOnline
        (savePreferenceProfileOnline [] p "u1").1 "u1" := by
  decide

/-- C7 (amended): the save/get round-trip holds offline for every profile;
online it holds up to the row translation, which preserves the identity and
the eight preference fields but drops the optional `mealsToPrepare` and
`nonVegPreferences` fields — so `P ∈ get(save(P))` whenever those optional
fields are absent. -/
theorem c7_profile_roundTrip_amended :
    (∀ (ls : LocalStorage) (p : PreferenceProfile),
      p ∈ getPreferenceProfilesOffline (savePreferenceProfileOffline ls p)) ∧
    (∀ (db : List PreferenceProfileRow) (uid : String)
        (p : PreferenceProfile),
      p.mealsToPrepare = none → p.nonVegPreferences = none →
      p ∈ getPreferenceProfilesOnline
          (savePreferenceProfileOnline db p uid).1 uid) := by
  constructor
  · intro ls p
    simp [getPreferenceProfilesOffline, savePreferenceProfileOffline]
    exact mem_upsertProfileList _ p
  · intro db uid p hmeals hnonveg
    have hround : profileRowToApp (profileAppToRow p uid) = p := by
      rw [profileRowToApp_appToRow]
      cases p
      simp_all
    have hmem : profileAppToRow p uid ∈
        profilesQuery (savePreferenceProfileOnline db p uid).1 uid := by
      rw [profilesQuery, List.mem_filter]
      exact ⟨mem_upsertProfileRow db (profileAppToRow p uid), by
        simp [profileAppToRow]⟩
    rw [getPreferenceProfilesOnline]
    exact List.mem_map.mpr ⟨profileAppToRow p uid, hmem, hround⟩

/-- Witness for C7 (amended) at a concrete optional-field-free profile. -/
theorem c7_profile_roundTrip_witness :
    let p : PreferenceProfile :=
      { id := "p1", name := "N", dietaryType := "veg", allergies := ["nuts"],
        dislikes := [], breakfastPreferences := ["idli"],
        lunchPreferences := [], dinnerPreferences := [],
        specialInstructions := "less oil", pantryStaples := ["rice"] }
    p ∈ getPreferenceProfilesOnline
        (savePreferenceProfileOnline [] p "u1").1 "u1" := by
  exact c7_profile_roundTrip_amended.2 [] "u1" _ rfl rfl

theorem learningWindow_eq_nil (db : List ScheduledMealRow) (uid : String)
    (cutoff : Nat) (h : ∀ r ∈ db, r.user_id = uid → r.date < cutoff) :
    learningWindow db uid cutoff = [] := by
  rw [learningWindow, List.filter_eq_nil_iff]
  intro r hr
  by_cases hu : r.user_id = uid
  · have := h r hr hu
    simp [hu, Nat.not_le.mpr this]
  · simp [hu]

/-- C10: an empty Schedule — or a window containing no entries — yields the
all-empty summary (`totalMealCount = 0`, empty lists, null dates) in both
modes, and an online query failure also degrades to the empty summary
rather than raising. -/
theorem c10_empty_window_summary :
    (∀ (ls : LocalStorage) (cutoff : Nat),
      (∀ kv ∈ ls.qookcommander_schedule.getD [], kv.1 < cutoff) →
      getMealLearningSummaryOffline ls cutoff = emptySummary) ∧
    getMealLearningSummaryOnline [] = emptySummary ∧
    (∀ e : DbError,
      getMealLearningSummaryOnlineRes (.error e) = emptySummary) ∧
    (∀ (db : List ScheduledMealRow) (uid : String) (cutoff : Nat),
      (∀ r ∈ db, r.user_id = uid → r.date < cutoff) →
      getMealLearningSummaryOnline (fetchLearningRows db uid cutoff) =
        emptySummary) := by
  refine ⟨?_, rfl, fun e => rfl, ?_⟩
  · intro ls cutoff h
    cases hsc : ls.qookcommander_schedule with
    | none => simp [getMealLearningSummaryOffline, hsc]
    | some sched =>
        rw [hsc] at h
        have hwin : sched.filter (fun kv => decide (cutoff ≤ kv.1)) = [] := by
          rw [List.filter_eq_nil_iff]
          intro kv hkv
          simpa using Nat.not_le.mpr (h kv (by simpa using hkv))
        simp [getMealLearningSummaryOffline, hsc, hwin, jsSetDedup,
          sliceLast, emptySummary]
  · intro db uid cutoff h
    rw [fetchLearningRows, learningWindow_eq_nil db uid cutoff h]
    rfl

/-- Witness for C10 at a one-entry schedule/table fully below the cutoff. -/
theorem c10_empty_window_summary_witness :
    getMealLearningSummaryOffline
        { qookcommander_schedule := some [(1, ⟨"1", "Idli", "", ""⟩)] } 5 =
      emptySummary ∧
    getMealLearningSummaryOnline
        (fetchLearningRows [⟨"u1", 1, some "Idli", none, none⟩] "u1" 5) =
      emptySummary := by
  refine ⟨c10_empty_window_summary.1
      { qookcommander_schedule := some [(1, ⟨"1", "Idli", "", ""⟩)] } 5
      (by decide),
    c10_empty_window_summary.2.2.2 [⟨"u1", 1, some "Idli", none, none⟩]
      "u1" 5 (by decide)⟩

theorem sliceLast_length_le (n : Nat) (xs : List String) :
    (sliceLast n xs).length ≤ n := by
  simp only [sliceLast, List.length_drop]
  omega

theorem collectRows_recent (rows : List LearningRow) :
    ∀ idx, (collectRows idx rows).2.2.2 =
      (rows.take (21 - idx)).flatMap rowEvents := by
  induction rows with
  | nil => intro idx; simp [collectRows]
  | cons r rest ih =>
      intro idx
      by_cases h : idx < 21
      · have h21 : 21 - idx = (21 - (idx + 1)) + 1 := by omega
        simp [collectRows, h, ih (idx + 1), h21, List.take_succ_cons]
      · have h0 : 21 - idx = 0 := by omega
        have h0' : 21 - (idx + 1) = 0 := by omega
        simp [collectRows, h, ih (idx + 1), h0, h0']

theorem rowEvents_length_le (r : LearningRow) : (rowEvents r).length ≤ 3 := by
  unfold rowEvents
  split_ifs <;> simp

theorem flatMap_rowEvents_length_le (l : List LearningRow) :
    (l.flatMap rowEvents).length ≤ 3 * l.length := by
  induction l with
  | nil => simp
  | cons r rest ih =>
      rw [List.flatMap_cons, List.length_append]
      have := rowEvents_length_le r
      simp only [List.length_cons]
      omega

/-- C3 (counterexample): in online mode `recentMeals` is NOT capped at 21
entries — the `index < 21` guard counts fetched rows (dates), not
slot-events, so 8 fully-populated days already produce 24 recent meals. -/
theorem c3_recentMeals_exceeds_21_counterexample :
    let row := fun (d : Nat) =>
      (⟨"u1", d, some "B", some "L", some "D"⟩ : ScheduledMealRow)
    let db := [row 1, row 2, row 3, row 4, row 5, row 6, row 7, row 8]
    (getMealLearningSummaryOnline
        (fetchLearningRows db "u1" 0)).recentMeals.length = 24 ∧
    ¬ (getMealLearningSummaryOnline
        (fetchLearningRows db "u1" 0)).recentMeals.length ≤ 21 := by
  exact ⟨rfl, by decide⟩

/-- C3 (amended): offline, `recentMeals` is the `slice(-21)` of the
in-window non-empty slot-events (hence at most 21 entries, in map-iteration
order); online, `recentMeals` consists of ALL non-empty slot-events of the
first 21 fetched rows in reverse-chronological order (breakfast→lunch→
dinner per date, duplicates preserved), bounded by 63 — not 21 — entries. -/
theorem c3_recentMeals_bounds_amended :
    (∀ (ls : LocalStorage) (cutoff : Nat),
      (getMealLearningSummaryOffline ls cutoff).recentMeals.length ≤ 21) ∧
    (∀ rows : List LearningRow,
      (getMealLearningSummaryOnline rows).recentMeals =
        (rows.take 21).flatMap rowEvents) ∧
    (∀ rows : List LearningRow,
      (getMealLearningSummaryOnline rows).recentMeals.length ≤ 63) := by
  have honline : ∀ rows : List LearningRow,
      (getMealLearningSummaryOnline rows).recentMeals =
        (rows.take 21).flatMap rowEvents := by
    intro rows
    by_cases hr : rows = []
    · subst hr
      rfl
    · have hne : rows.isEmpty = false := List.isEmpty_eq_false.mpr hr
      simp [getMealLearningSummaryOnline, hne, collectRows_recent rows 0]
  refine ⟨?_, honline, ?_⟩
  · intro ls cutoff
    cases hsc : ls.qookcommander_schedule with
    | none => simp [getMealLearningSummaryOffline, hsc, emptySummary]
    | some sched =>
        simp only [getMealLearningSummaryOffline, hsc]
        exact sliceLast_length_le 21 _
  · intro rows
    rw [honline rows]
    have h1 := flatMap_rowEvents_length_le (rows.take 21)
    have h2 := List.length_take_le 21 rows
    omega

/-- The dates present in the filtered window. -/
def winDates (db : List ScheduledMealRow) (userId : String) (cutoff : Nat) :
    List Nat :=
  (learningWindow db userId cutoff).map (fun r => r.date)

theorem summary_newestDate (rows : List LearningRow) :
    (getMealLearningSummaryOnline rows).newestDate =
      rows.head?.map (fun r => r.date) := by
  cases rows <;> simp [getMealLearningSummaryOnline, emptySummary]

theorem summary_oldestDate (rows : List LearningRow) :
    (getMealLearningSummaryOnline rows).oldestDate =
      rows.getLast?.map (fun r => r.date) := by
  cases rows <;> simp [getMealLearningSummaryOnline, emptySummary]

theorem getLast?_mem_learning :
    ∀ (l : List LearningRow) (a : LearningRow), l.getLast? = some a →
      a ∈ l := by
  intro l
  induction l with
  | nil => simp
  | cons x rest ih =>
      intro a h
      cases rest with
      | nil =>
          rw [List.getLast?_singleton] at h
          simp [Option.some_inj.mp h]
      | cons y t =>
          rw [List.getLast?_cons_cons] at h
          exact List.mem_cons_of_mem x (ih a h)

theorem sorted_getLast_min :
    ∀ (l : List LearningRow), List.Sorted learningDesc l →
      ∀ a, l.getLast? = some a → ∀ b ∈ l, a.date ≤ b.date := by
  intro l
  induction l with
  | nil => simp
  | cons x rest ih =>
      intro hs a hlast b hb
      cases rest with
      | nil =>
          rw [List.getLast?_singleton] at hlast
          have hax : a = x := (Option.some_inj.mp hlast).symm
          have hbx : b = x := by simpa using hb
          rw [hax, hbx]
      | cons y t =>
          rw [List.getLast?_cons_cons] at hlast
          have hparts := List.sorted_cons.mp hs
          rcases List.mem_cons.mp hb with hbx | hbr
          · have hamem : a ∈ y :: t := getLast?_mem_learning _ a hlast
            rw [hbx]
            exact hparts.1 a hamem
          · exact ih hparts.2 a hlast b hbr

theorem fetch_perm (db : List ScheduledMealRow) (uid : String)
    (cutoff : Nat) :
    (fetchLearningRows db uid cutoff).Perm
      ((learningWindow db uid cutoff).map toLearningRow) :=
  List.perm_insertionSort learningDesc _

theorem fetch_sorted (db : List ScheduledMealRow) (uid : String)
    (cutoff : Nat) :
    List.Sorted learningDesc (fetchLearningRows db uid cutoff) :=
  List.sorted_insertionSort learningDesc _

theorem fetch_eq_nil_iff (db : List ScheduledMealRow) (uid : String)
    (cutoff : Nat) :
    fetchLearningRows db uid cutoff = [] ↔
      learningWindow db uid cutoff = [] := by
  constructor
  · intro h
    have hperm := (fetch_perm db uid cutoff).symm
    rw [h] at hperm
    exact List.map_eq_nil_iff.mp hperm.eq_nil
  · intro h
    rw [fetchLearningRows, h]
    rfl

theorem date_mem_winDates_of_mem_fetch (db : List ScheduledMealRow)
    (uid : String) (cutoff : Nat) (x : LearningRow)
    (hx : x ∈ fetchLearningRows db uid cutoff) :
    x.date ∈ winDates db uid cutoff := by
  have hmap : x ∈ (learningWindow db uid cutoff).map toLearningRow :=
    (fetch_perm db uid cutoff).mem_iff.mp hx
  rcases List.mem_map.mp hmap with ⟨r, hr, hxr⟩
  refine List.mem_map.mpr ⟨r, hr, ?_⟩
  rw [← hxr]
  rfl

theorem mem_fetch_of_winDates (db : List ScheduledMealRow) (uid : String)
    (cutoff : Nat) (d : Nat) (hd : d ∈ winDates db uid cutoff) :
    ∃ x ∈ fetchLearningRows db uid cutoff, x.date = d := by
  rcases List.mem_map.mp hd with ⟨r, hr, hrd⟩
  refine ⟨toLearningRow r, ?_, hrd⟩
  exact (fetch_perm db uid cutoff).mem_iff.mpr
    (List.mem_map.mpr ⟨r, hr, rfl⟩)

/-- C4 (counterexample): in offline mode the summary returns
`oldestDate = newestDate = null` even though the filtered window is
non-empty (`totalMealCount = 1`) — refuting "null exactly when the window
is empty" for the offline branch. -/
theorem c4_offline_dates_null_counterexample :
    let ls : LocalStorage :=
      { qookcommander_schedule := some [(5, ⟨"5", "Idli", "", ""⟩)] }
    (getMealLearningSummaryOffline ls 0).totalMealCount = 1 ∧
    (getMealLearningSummaryOffline ls 0).oldestDate = none ∧
    (getMealLearningSummaryOffline ls 0).newestDate = none := by
  exact ⟨rfl, rfl, rfl⟩

/-- C4 (amended): online, `oldestDate`/`newestDate` are the min/max date
present in the filtered window and are null exactly when the window is
empty; offline, the summary always returns `oldestDate = newestDate =
null`, even for a non-empty window. -/
theorem c4_summary_minmax_amended :
    (∀ (ls : LocalStorage) (cutoff : Nat),
      (getMealLearningSummaryOffline ls cutoff).oldestDate = none ∧
      (getMealLearningSummaryOffline ls cutoff).newestDate = none) ∧
    (∀ (db : List ScheduledMealRow) (uid : String) (cutoff : Nat),
      ((getMealLearningSummaryOnline
          (fetchLearningRows db uid cutoff)).newestDate = none ↔
        learningWindow db uid cutoff = []) ∧
      ((getMealLearningSummaryOnline
          (fetchLearningRows db uid cutoff)).oldestDate = none ↔
        learningWindow db uid cutoff = []) ∧
      (∀ d, (getMealLearningSummaryOnline
          (fetchLearningRows db uid cutoff)).newestDate = some d →
        d ∈ winDates db uid cutoff ∧
          ∀ d' ∈ winDates db uid cutoff, d' ≤ d) ∧
      (∀ d, (getMealLearningSummaryOnline
          (fetchLearningRows db uid cutoff)).oldestDate = some d →
        d ∈ winDates db uid cutoff ∧
          ∀ d' ∈ winDates db uid cutoff, d ≤ d')) := by
  constructor
  · intro ls cutoff
    cases hsc : ls.qookcommander_schedule <;>
      simp [getMealLearningSummaryOffline, hsc, emptySummary]
  · intro db uid cutoff
    refine ⟨?_, ?_, ?_, ?_⟩
    · rw [summary_newestDate, ← fetch_eq_nil_iff db uid cutoff]
      cases h : fetchLearningRows db uid cutoff <;> simp [h]
    · rw [summary_oldestDate, ← fetch_eq_nil_iff db uid cutoff]
      cases h : fetchLearningRows db uid cutoff with
      | nil => simp
      | cons x rest =>
          cases hlast : (x :: rest).getLast? with
          | none => simp [List.getLast?_eq_none_iff] at hlast
          | some a => simp [hlast]
    · intro d hd
      rw [summary_newestDate] at hd
      rcases Option.map_eq_some'.mp hd with ⟨x, hhead, hxd⟩
      cases hfe : fetchLearningRows db uid cutoff with
      | nil => rw [hfe] at hhead; simp at hhead
      | cons r rest =>
          rw [hfe] at hhead
          have hxr : x = r := by
            have := hhead
            simp at this
            exact this.symm
          subst hxr
          subst hxd
          constructor
          · exact date_mem_winDates_of_mem_fetch db uid cutoff x
              (by rw [hfe]; exact List.mem_cons_self x rest)
          · intro d' hd'
            rcases mem_fetch_of_winDates db uid cutoff d' hd' with
              ⟨y, hy, hyd⟩
            rw [hfe] at hy
            rcases List.mem_cons.mp hy with hyx | hyr
            · rw [← hyd, hyx]
            · have hsort := fetch_sorted db uid cutoff
              rw [hfe] at hsort
              have := List.rel_of_sorted_cons hsort y hyr
              rw [← hyd]
              exact this
    · intro d hd
      rw [summary_oldestDate] at hd
      rcases Option.map_eq_some'.mp hd with ⟨a, hlast, had⟩
      subst had
      have hamem : a ∈ fetchLearningRows db uid cutoff :=
        getLast?_mem_learning _ a hlast
      constructor
      · exact date_mem_winDates_of_mem_fetch db uid cutoff a hamem
      · intro d' hd'
        rcases mem_fetch_of_winDates db uid cutoff d' hd' with ⟨y, hy, hyd⟩
        rw [← hyd]
        exact sorted_getLast_min _ (fetch_sorted db uid cutoff) a hlast y hy

/-- Witness for C4 (amended) at a concrete two-day window: the summary's
`newestDate` is 8, which is a window date and an upper bound of the window
dates 3 and 8. -/
theorem c4_summary_minmax_witness :
    (getMealLearningSummaryOnline
        (fetchLearningRows
          [⟨"u1", 3, some "Idli", none, none⟩,
           ⟨"u1", 8, some "Dosa", none, none⟩] "u1" 0)).newestDate =
      some 8 ∧
    8 ∈ winDates
        [⟨"u1", 3, some "Idli", none, none⟩,
         ⟨"u1", 8, some "Dosa", none, none⟩] "u1" 0 := by
  refine ⟨rfl, ?_⟩
  exact ((c4_summary_minmax_amended.2
      [⟨"u1", 3, some "Idli", none, none⟩,
       ⟨"u1", 8, some "Dosa", none, none⟩] "u1" 0).2.2.1 8 rfl).1

end CookCommander
